import Mathlib

/-!
Verification development for the ns-router name-resolution router.

The definitions below are a shallow embedding of the router's core:
the dispatch engine's resolve/dispatch path (`src/coroutine.rs`), the
suffix lookup (`get_suffix`), the single-name subscription state machine
(`src/subscr.rs`), the multi-name aggregator (`src/multisubscr.rs`), the
name parser (`src/name.rs`), the slot channel (`src/slot.rs`) and the
name-list conversion in the router facade (`src/router.rs`).

Strings are modelled as `List Char` (Rust `&str` viewed as a character
sequence; all the strings involved are ASCII, so byte indices and
character indices coincide).  Machine integers that matter (ports) are
`Nat` with explicit bounds.  `Arc` pointer identity is modelled by a
numeric `id` field.  Hash maps are association lists.
-/

namespace NsRouter

/-- A string, as a list of characters. -/
abbrev Str := List Char

/-- An IP address: either a v4 quad or a v6 group list.  The router never
computes with the numeric value, it only needs equality, so octets and
groups are plain `Nat`s. -/
inductive IpAddr where
  | v4 (a b c d : Nat)
  | v6 (gs : List Nat)
deriving DecidableEq, Repr

/-- A socket address: IP plus port (`std::net::SocketAddr`). -/
structure SockAddr where
  ip : IpAddr
  port : Nat
deriving DecidableEq, Repr

/-- `abstract_ns::IpList`: an ordered list of IP addresses. -/
abbrev IpList := List IpAddr

/-- `abstract_ns::Address`: a set of host-port endpoints; equality is by
set contents, so it is a `Finset`. -/
abbrev Address := Finset SockAddr

/-- `IpList::with_port(p)`: pair every IP in the list with port `p`. -/
def withPort (l : IpList) (p : Nat) : Address :=
  (l.map (fun ip => SockAddr.mk ip p)).toFinset

/-- `abstract_ns::addr::union`: union of a collection of Addresses. -/
def unionAddrs (l : List Address) : Address :=
  l.foldl (· ∪ ·) ∅

/-- A back-end handle (`Arc<Resolver>` / a configured `Suffix`).  `id`
models the `Arc` allocation identity used by `Arc::ptr_eq`; the two
`Option` fields model the optional subscribe capabilities consulted by
the multi-name aggregator (`Suffix.host_subscriber` / `.subscriber`),
carrying the identity of the capability object when present. -/
structure Backend where
  id : Nat
  host_subscriber : Option Nat := none
  subscriber : Option Nat := none
deriving DecidableEq, Repr

/-- Association-list lookup, modelling `HashMap::get`. -/
def lookupA {β : Type} : List (Str × β) → Str → Option β
  | [], _ => none
  | (k, v) :: rest, key => if k = key then some v else lookupA rest key

/-- The router configuration snapshot (`src/config.rs`): timing knobs,
static host/service tables, the suffix table and the fallthrough
back-end (`root`).  Durations are in milliseconds. -/
structure Config where
  restart_delay : Nat
  convergence_delay : Nat
  hosts : List (Str × IpList)
  services : List (Str × Address)
  suffixes : List (Str × Backend)
  root : Backend

/-- The scanning loop of `get_suffix` (`src/coroutine.rs` lines 95-99):
walk the characters left to right; at each `'.'` try the right-hand
suffix that starts just after it; return the first hit. -/
def scanSuffix (cfg : Config) : Str → Option Backend
  | [] => none
  | c :: rest =>
    if c = '.' then
      match lookupA cfg.suffixes rest with
      | some b => some b
      | none => scanSuffix cfg rest
    else scanSuffix cfg rest

/-- `get_suffix(cfg, name)` (`src/coroutine.rs` lines 91-101): exact
match first, then the left-to-right dot scan, then the fallthrough. -/
def get_suffix (cfg : Config) (name : Str) : Backend :=
  match lookupA cfg.suffixes name with
  | some b => b
  | none =>
    match scanSuffix cfg name with
    | some b => b
    | none => cfg.root

/-- All right-hand suffixes of a name that start just after a `'.'`,
listed in the order of the `'.'` positions, left to right. -/
def dotSuffixes : Str → List Str
  | [] => []
  | c :: rest => (if c = '.' then [rest] else []) ++ dotSuffixes rest

/-- Modelled from the spec: "exact match first (the whole name is itself
a suffix key); otherwise scan label boundaries left-to-right (each `.`
position) and try each shorter right-hand suffix; return the first
match.  If none, return the fallthrough." -/
def getSuffixSpec (cfg : Config) (name : Str) : Backend :=
  match lookupA cfg.suffixes name with
  | some b => b
  | none =>
    match (dotSuffixes name).findSome? (lookupA cfg.suffixes) with
    | some b => b
    | none => cfg.root

/-- Outcome of the engine's resolve path: either an immediate reply from
the static tables, or delegation to a back-end resolver. -/
inductive ROutcome (α : Type) where
  | replied (v : α)
  | delegated (b : Backend)
deriving DecidableEq, Repr

/-- `ResolverFuture::resolve_host` (`src/coroutine.rs` lines 110-120):
reply from `cfg.hosts` when present, otherwise delegate to the suffix
back-end. -/
def resolve_host (cfg : Config) (name : Str) : ROutcome IpList :=
  match lookupA cfg.hosts name with
  | some v => .replied v
  | none => .delegated (get_suffix cfg name)

/-- `ResolverFuture::resolve_host_port` (`src/coroutine.rs` lines
121-132): like `resolve_host` but the static reply is lifted with the
requested port. -/
def resolve_host_port (cfg : Config) (name : Str) (port : Nat) :
    ROutcome Address :=
  match lookupA cfg.hosts name with
  | some v => .replied (withPort v port)
  | none => .delegated (get_suffix cfg name)

/-- `ResolverFuture::resolve` (`src/coroutine.rs` lines 133-143): reply
from `cfg.services` when present, otherwise delegate. -/
def resolve (cfg : Config) (name : Str) : ROutcome Address :=
  match lookupA cfg.services name with
  | some v => .replied v
  | none => .delegated (get_suffix cfg name)

/-! ## Single-name subscription tasks (`src/subscr.rs`) -/

/-- `TaskResult` (`src/subscr.rs` lines 23-29): what a subscription
task's `poll` tells the engine. -/
inductive TaskResult where
  | Continue
  | Stop
  | Restart
  | DelayRestart
deriving DecidableEq, Repr

/-- One response of the fused back-end stream during a poll: a yielded
item, end-of-stream, or an error.  A poll consumes responses until the
list is exhausted (which models `NotReady`) or a terminal one is hit. -/
inductive SrcEv (α : Type) where
  | item (x : α)
  | done
  | error
deriving DecidableEq, Repr

/-- `Subscr::poll` / `HostSubscr::poll` (`src/subscr.rs` lines 141-168
and 190-217), as a pure function of the responses the source stream
gives during this poll.  `closed` is true when the consumer has dropped
the receiving end of the slot (then `swap` fails and `poll_cancel` is
ready).  Returns the values successfully swapped into the consumer slot,
in order, and the task result. -/
def subscr_poll {α : Type} (closed : Bool) : List (SrcEv α) → List α × TaskResult
  | [] => ([], if closed then .Stop else .Continue)
  | .item x :: rest =>
    if closed then ([], .Stop)
    else
      let (es, r) := subscr_poll closed rest
      (x :: es, r)
  | .done :: _ => ([], .DelayRestart)
  | .error :: _ => ([], .DelayRestart)

/-- Outcome of `Subscr::restart` / `HostSubscr::restart`: the task
either writes the static value and is replaced by a no-op task holding
`(name, slot)`, or dies because the static write found the slot closed,
or calls `subscribe` on a (possibly new) back-end creating a fresh task,
or re-spawns itself unchanged. -/
inductive SubRestartOut (α : Type) where
  | noopTask (name : Str) (written : α)
  | dropped
  | fresh (b : Backend)
  | respawn
deriving DecidableEq, Repr

/-- `Subscr::restart` (`src/subscr.rs` lines 125-140): static service
entry wins; otherwise re-route by suffix, resubscribing exactly when the
back-end changed (by `Arc::ptr_eq`, modelled by `id`) or the fused
source is done.  `subscriberId` is the identity of the back-end that
served the task so far; `srcDone` is `source.is_done()`. -/
def subscr_restart (cfg : Config) (name : Str) (subscriberId : Nat)
    (srcDone closed : Bool) : SubRestartOut Address :=
  match lookupA cfg.services name with
  | some v => if closed then .dropped else .noopTask name v
  | none =>
    let b := get_suffix cfg name
    if b.id ≠ subscriberId ∨ srcDone then .fresh b else .respawn

/-- `HostSubscr::restart` (`src/subscr.rs` lines 174-189): the host-kind
twin of `subscr_restart`, consulting `cfg.hosts`. -/
def host_subscr_restart (cfg : Config) (name : Str) (subscriberId : Nat)
    (srcDone closed : Bool) : SubRestartOut IpList :=
  match lookupA cfg.hosts name with
  | some v => if closed then .dropped else .noopTask name v
  | none =>
    let b := get_suffix cfg name
    if b.id ≠ subscriberId ∨ srcDone then .fresh b else .respawn

/-- `FutureResult` (`src/coroutine.rs` lines 34-47), the completion
value of an in-flight engine task; `τ` stands for the boxed
continuation. -/
inductive FutureResult (τ : Type) where
  | Done
  | Stop
  | Restart (task : τ)
  | DelayRestart (task : τ)
deriving DecidableEq, Repr

/-- What the engine does with a completed task result. -/
inductive EngineAction (τ : Type) where
  | noop
  | terminate
  | restartNow (task : τ)
  | timer (delayMs : Nat) (andThen : FutureResult τ)
deriving DecidableEq, Repr

/-- The engine's handling of finished task results (`src/coroutine.rs`
lines 213-239, the non-config cases): `Done` is dropped, `Stop`
terminates the engine, `Restart` restarts the continuation at once, and
`DelayRestart` schedules a `Restart` of the same task behind a timeout
of `cfg.restart_delay`. -/
def engine_handle {τ : Type} (cfg : Config) : FutureResult τ → EngineAction τ
  | .Done => .noop
  | .Stop => .terminate
  | .Restart t => .restartNow t
  | .DelayRestart t => .timer cfg.restart_delay (.Restart t)

/-! ## Internal names and the multi-name aggregator (`src/multisubscr.rs`) -/

/-- `InternalName` (`src/name.rs` lines 88-93): the parser output, used
as the key of the multi-name aggregator's entry map. -/
inductive InternalName where
  | HostPort (host : Str) (port : Nat)
  | Service (service : Str)
  | Addr (sa : SockAddr)
deriving DecidableEq, Repr

/-- Per-entry state of the aggregator (`src/multisubscr.rs` lines
20-25).  The live variants carry the last observed value; the watch-slot
receiver itself carries no information relevant to the claims and is
elided. -/
inductive EntryState where
  | StaticHost (l : IpList) (port : Nat)
  | StaticAddr (a : Address)
  | Host (last : Option IpList) (port : Nat)
  | Addr (last : Option Address)
deriving DecidableEq

/-- `State::addr` (`src/multisubscr.rs` lines 36-47): the Address an
entry currently contributes, `none` while waiting. -/
def EntryState.addr : EntryState → Option Address
  | .StaticHost l p => some (withPort l p)
  | .StaticAddr a => some a
  | .Host (some l) p => some (withPort l p)
  | .Host none _ => none
  | .Addr (some a) => some a
  | .Addr none => none

/-- `State::is_static` (`src/multisubscr.rs` lines 48-56). -/
def EntryState.is_static : EntryState → Bool
  | .StaticHost _ _ => true
  | .StaticAddr _ => true
  | .Host _ _ => false
  | .Addr _ => false

/-- `State::is_complete` (`src/multisubscr.rs` lines 57-67): a value has
been observed at least once. -/
def EntryState.is_complete : EntryState → Bool
  | .StaticHost _ _ => true
  | .StaticAddr _ => true
  | .Host (some _) _ => true
  | .Host none _ => false
  | .Addr (some _) => true
  | .Addr none => false

/-- The aggregator's entry map (`HashMap<InternalName, State>`), as an
association list. -/
abbrev Items := List (InternalName × EntryState)

/-- `HashMap::remove`: take the entry for `n` out, returning it and the
remaining map. -/
def itemsRemove : Items → InternalName → Option EntryState × Items
  | [], _ => (none, [])
  | (k, v) :: rest, n =>
    if k = n then (some v, rest)
    else
      let (r, rest') := itemsRemove rest n
      (r, (k, v) :: rest')

/-- `HashMap::insert`: replace the value under an existing key or append
a new entry. -/
def itemsInsert : Items → InternalName → EntryState → Items
  | [], n, st => [(n, st)]
  | (k, v) :: rest, n, st =>
    if k = n then (k, st) :: rest else (k, v) :: itemsInsert rest n st

/-- `MultiSubscr::send_current`'s value (`src/multisubscr.rs` lines
79-83): the union of `addr()` over all entries, entries still waiting
contributing nothing. -/
def currentUnion (its : Items) : Address :=
  unionAddrs (its.filterMap (fun e => e.2.addr))

/-- Classification of a name that is not covered by a kept live entry
(`src/multisubscr.rs` lines 106-133): static table first, then the
suffix back-end's subscribe capability, else the name is omitted. -/
def classify (cfg : Config) : InternalName → Option EntryState
  | .HostPort host port =>
    match lookupA cfg.hosts host with
    | some v => some (.StaticHost v port)
    | none =>
      match (get_suffix cfg host).host_subscriber with
      | some _ => some (.Host none port)
      | none => none
  | .Service service =>
    match lookupA cfg.services service with
    | some v => some (.StaticAddr v)
    | none =>
      match (get_suffix cfg service).subscriber with
      | some _ => some (.Addr none)
      | none => none
  | .Addr _ => none

/-- The entry-rebuilding loop of `MultiSubscr::restart`
(`src/multisubscr.rs` lines 92-134): walk `current`; a kept live entry
is carried over (recording whether it is complete in the `all_ok`
accumulator); anything else is classified from scratch against `cfg`
(without touching `all_ok`).  Returns the new map and `all_ok`. -/
def rebuild (cfg : Config) :
    List InternalName → Items → Items → Bool → Items × Bool
  | [], _, acc, allOk => (acc, allOk)
  | n :: rest, old, acc, allOk =>
    match itemsRemove old n with
    | (some item, old') =>
      if !item.is_static then
        rebuild cfg rest old' (itemsInsert acc n item)
          (allOk && item.is_complete)
      else
        match classify cfg n with
        | some st => rebuild cfg rest old' (itemsInsert acc n st) allOk
        | none => rebuild cfg rest old' acc allOk
    | (none, old') =>
      match classify cfg n with
      | some st => rebuild cfg rest old' (itemsInsert acc n st) allOk
      | none => rebuild cfg rest old' acc allOk

/-- Result of one `MultiSubscr::restart`: the rebuilt entry map, the
value written to the consumer slot (if any), the armed convergence timer
(`some ()` when armed), and whether the task spawned itself again. -/
structure MRes where
  items : Items
  emitted : Option Address
  timer : Option Unit
  alive : Bool
deriving DecidableEq

/-- `MultiSubscr::restart` (`src/multisubscr.rs` lines 88-156).
`prevTimer` is the timer field carried into the restart, `timerFired`
tells whether the freshly created `cfg.convergence_delay` timeout polls
ready at once, `closed` whether the consumer slot is gone. -/
def multi_restart (cfg : Config) (current : List InternalName) (old : Items)
    (prevTimer : Option Unit) (timerFired closed : Bool) : MRes :=
  let (items, allOk) := rebuild cfg current old [] true
  if allOk && current.length > 0 then
    if closed then ⟨items, none, prevTimer, false⟩
    else ⟨items, some (currentUnion items), prevTimer, true⟩
  else
    if timerFired then
      if closed then ⟨items, none, prevTimer, false⟩
      else ⟨items, some (currentUnion items), none, true⟩
    else ⟨items, none, some (), true⟩

/-- One response of the name-list input stream during a poll. -/
inductive InEv where
  | notReady
  | newList (l : List InternalName)
  | ended
  | errored
deriving DecidableEq, Repr

/-- A value yielded by an entry's watch slot during this poll. -/
inductive EntryVal where
  | hl (l : IpList)
  | ad (a : Address)
deriving DecidableEq

/-- Poll of one entry's watch slot (`src/multisubscr.rs` lines 187-218):
a new value distinct from `last` updates the entry and marks the poll
updated. -/
def pollEntry (v : Option EntryVal) : EntryState → EntryState × Bool
  | .Host last p =>
    match v with
    | some (.hl x) =>
      if some x ≠ last then (.Host (some x) p, true) else (.Host last p, false)
    | _ => (.Host last p, false)
  | .Addr last =>
    match v with
    | some (.ad x) =>
      if some x ≠ last then (.Addr (some x), true) else (.Addr last, false)
    | _ => (.Addr last, false)
  | st => (st, false)

/-- Result of one `MultiSubscr::poll`. -/
structure MPollRes where
  items : Items
  current : List InternalName
  timer : Option Unit
  emitted : Option Address
  result : TaskResult
deriving DecidableEq

/-- The entry-polling tail of `MultiSubscr::poll` (`src/multisubscr.rs`
lines 187-232): poll every entry's watch slot, and when anything (or the
timer) updated, emit unless a still-armed timer gates the emission; an
armed timer is disarmed as soon as every entry is complete. -/
def multiPollEntries (items : Items) (current : List InternalName)
    (timer1 : Option Unit) (updated0 : Bool)
    (vals : List (InternalName × EntryVal)) : MPollRes :=
  let step := items.map (fun e =>
    let (st', u) := pollEntry ((vals.lookup e.1)) e.2
    ((e.1, st'), u))
  let items1 := step.map (fun e => e.1)
  let updated := updated0 || step.any (fun e => e.2)
  if updated then
    let timer2 :=
      if timer1.isSome && items1.all (fun e => e.2.is_complete) then none
      else timer1
    if timer2.isNone then
      ⟨items1, current, timer2, some (currentUnion items1), .Continue⟩
    else ⟨items1, current, timer2, none, .Continue⟩
  else ⟨items1, current, timer1, none, .Continue⟩

/-- `MultiSubscr::poll` (`src/multisubscr.rs` lines 157-233).  Inputs:
the task state (`items`, `current`, `timer`), whether the consumer slot
is cancelled, whether the armed timer fires, the input-stream response
and the values produced by the entries' watch slots this poll. -/
def multi_poll (items : Items) (current : List InternalName)
    (timer : Option Unit) (closed timerFires : Bool) (inEv : InEv)
    (vals : List (InternalName × EntryVal)) : MPollRes :=
  if closed then ⟨items, current, timer, none, .Stop⟩
  else
    let fired := timer.isSome && timerFires
    let timer1 : Option Unit := if fired then none else timer
    let updated0 := fired
    match inEv with
    | .errored => ⟨items, current, timer1, none, .Stop⟩
    | .ended => ⟨items, current, timer1, none, .Stop⟩
    | .newList l =>
      if l ≠ current then ⟨items, l, timer1, none, .Restart⟩
      else multiPollEntries items current timer1 updated0 vals
    | .notReady => multiPollEntries items current timer1 updated0 vals

/-! ## The name parser (`src/name.rs`)

The leaf parsers (`std::net` IP and socket-address parsing, the
`abstract_ns` name validation, `u16` port parsing) are external
collaborators of this repository; they are modelled from the spec. -/

/-- Modelled from the spec: `abstract_ns` name validation — "a validated
domain-style identifier (non-empty, DNS-legal characters)".  DNS-legal
characters here: ASCII letters, digits, `-`, `_`, and the label
separator `.`. -/
def nameChar (c : Char) : Bool :=
  c.isAlpha || c.isDigit || c = '-' || c = '_' || c = '.'

/-- Modelled from the spec: `Name::from_str`, accepting exactly the
non-empty strings of DNS-legal characters. -/
def nameFromStr (s : Str) : Option Str :=
  if !s.isEmpty && s.all nameChar then some s else none

/-- Decimal value of a non-empty digit string. -/
def decVal : Str → Option Nat
  | [] => none
  | s =>
    if s.all Char.isDigit then
      some (s.foldl (fun acc c => acc * 10 + (c.toNat - 48)) 0)
    else none

/-- Modelled from the spec: `u16` port parsing — "parse tail as port";
a decimal number that fits in 16 bits. -/
def parsePort (s : Str) : Option Nat :=
  match decVal s with
  | some n => if n < 65536 then some n else none
  | none => none

/-- Split a string on every occurrence of a separator character. -/
def splitOn (sep : Char) : Str → List Str
  | [] => [[]]
  | c :: rest =>
    if c = sep then [] :: splitOn sep rest
    else
      match splitOn sep rest with
      | [] => [[c]]
      | p :: ps => (c :: p) :: ps

/-- One dotted-quad octet: one to three digits, value at most 255. -/
def parseOctet (s : Str) : Option Nat :=
  if s.length ≥ 1 && s.length ≤ 3 then
    match decVal s with
    | some n => if n ≤ 255 then some n else none
    | none => none
  else none

/-- Modelled from the spec: IPv4 literal parsing ("127.0.0.1"): four
dot-separated octets. -/
def parseIpv4 (s : Str) : Option IpAddr :=
  match splitOn '.' s with
  | [a, b, c, d] =>
    match parseOctet a, parseOctet b, parseOctet c, parseOctet d with
    | some x, some y, some z, some w => some (.v4 x y z w)
    | _, _, _, _ => none
  | _ => none

/-- Value of a hexadecimal digit. -/
def hexDigit (c : Char) : Option Nat :=
  if c.isDigit then some (c.toNat - 48)
  else if 'a' ≤ c && c ≤ 'f' then some (c.toNat - 97 + 10)
  else if 'A' ≤ c && c ≤ 'F' then some (c.toNat - 65 + 10)
  else none

/-- One IPv6 group: one to four hex digits. -/
def parseGroup (s : Str) : Option Nat :=
  if s.length ≥ 1 && s.length ≤ 4 then
    s.foldl (fun acc c =>
      match acc, hexDigit c with
      | some a, some d => some (a * 16 + d)
      | _, _ => none) (some 0)
  else none

/-- Parse a colon-separated list of IPv6 groups; the empty string stands
for no groups at all (one side of a `::`). -/
def parseGroups (s : Str) : Option (List Nat) :=
  if s.isEmpty then some []
  else
    (splitOn ':' s).foldr (fun g acc =>
      match parseGroup g, acc with
      | some v, some l => some (v :: l)
      | _, _ => none) (some [])

/-- Break a string at the first `::`, returning the parts before and
after it. -/
def breakDoubleColon : Str → Option (Str × Str)
  | ':' :: ':' :: rest => some ([], rest)
  | c :: rest =>
    match breakDoubleColon rest with
    | some (l, r) => some (c :: l, r)
    | none => none
  | [] => none

/-- Modelled from the spec: IPv6 literal parsing ("2001:db8::2:1", "no
brackets"): eight hex groups, or fewer with a single `::` standing for
the omitted zero groups. -/
def parseIpv6 (s : Str) : Option IpAddr :=
  match breakDoubleColon s with
  | some (l, r) =>
    if (breakDoubleColon r).isSome then none
    else
      match parseGroups l, parseGroups r with
      | some gl, some gr =>
        if gl.length + gr.length ≤ 7 then
          some (.v6 (gl ++ List.replicate (8 - gl.length - gr.length) 0 ++ gr))
        else none
      | _, _ => none
  | none =>
    match parseGroups s with
    | some gs => if gs.length = 8 then some (.v6 gs) else none
    | none => none

/-- Modelled from the spec: `IpAddr::from_str` — an IPv4 or IPv6
literal. -/
def parseIp (s : Str) : Option IpAddr :=
  match parseIpv4 s with
  | some ip => some ip
  | none => parseIpv6 s

/-- Break a string at the first occurrence of a character, returning the
parts before and after it (`str::find`). -/
def splitAtChar (sep : Char) : Str → Option (Str × Str)
  | [] => none
  | c :: rest =>
    if c = sep then some ([], rest)
    else
      match splitAtChar sep rest with
      | some (l, r) => some (c :: l, r)
      | none => none

/-- Modelled from the spec: `SocketAddr::from_str` — "`host:port` or
`[ipv6]:port` form": a bracketed IPv6 literal followed by `:port`, or an
IPv4 literal followed by `:port`. -/
def parseSockAddr (s : Str) : Option SockAddr :=
  match s with
  | '[' :: rest =>
    match splitAtChar ']' rest with
    | some (inner, ':' :: ptxt) =>
      match parseIpv6 inner, parsePort ptxt with
      | some ip, some p => some ⟨ip, p⟩
      | _, _ => none
    | _ => none
  | _ =>
    match splitAtChar ':' s with
    | some (h, t) =>
      match parseIpv4 h, parsePort t with
      | some ip, some p => some ⟨ip, p⟩
      | _, _ => none
    | none => none

/-- The two parse failures (`src/name.rs` lines 9-23): an invalid name
or an invalid port, each carrying the raw input (the `context(x)`
attached in `AutoName::parse`). -/
inductive ParseErr where
  | badName (raw : Str)
  | badPort (raw : Str)
deriving DecidableEq, Repr

/-- The `abstract_ns::Error` variants the router produces. -/
inductive AbsError where
  | NameNotFound
  | TemporaryError (msg : Str)
  | InvalidName (raw : Str) (reason : Str)
deriving DecidableEq, Repr

/-- `Into<abstract_ns::Error> for Error` (`src/name.rs` lines 153-164):
name failures become `InvalidName(raw, "bad name")`, port failures
`InvalidName(raw, "bad port number")`. -/
def errInto : ParseErr → AbsError
  | .badName raw => .InvalidName raw ("bad name".toList)
  | .badPort raw => .InvalidName raw ("bad port number".toList)

/-- The `Auto` arm of `AutoName::parse` (`src/name.rs` lines 102-115):
IP literal first, then socket-address form, then the `_` service prefix,
then `host:port`, then bare host with the default port. -/
def auto_parse (s : Str) (default_port : Nat) : Except ParseErr InternalName :=
  match parseIp s with
  | some ip => .ok (.Addr ⟨ip, default_port⟩)
  | none =>
    match parseSockAddr s with
    | some sa => .ok (.Addr sa)
    | none =>
      if s.head? = some '_' then
        match nameFromStr s with
        | some n => .ok (.Service n)
        | none => .error (.badName s)
      else
        match splitAtChar ':' s with
        | some (h, t) =>
          match nameFromStr h with
          | some n =>
            match parsePort t with
            | some p => .ok (.HostPort n p)
            | none => .error (.badPort s)
          | none => .error (.badName s)
        | none =>
          match nameFromStr s with
          | some n => .ok (.HostPort n default_port)
          | none => .error (.badName s)

/-- The name-list conversion loop shared by `Router::subscribe_many` and
`Router::subscribe_stream` (`src/router.rs` lines 128-136 and 201-210):
names whose parse fails are logged and skipped; the successfully parsed
names are pushed in order. -/
def parse_name_list (names : List Str) (default_port : Nat) :
    List InternalName :=
  names.foldl (fun acc n =>
    match auto_parse n default_port with
    | .ok x => acc ++ [x]
    | .error _ => acc) []

/-! ## The slot channel (`src/slot.rs`) -/

/-- The shared state of a slot channel: the single-value cell, whether a
receiver task is parked, the number of live senders (each holds a weak
reference) and whether the receiver is still alive (it holds the strong
reference). -/
structure SlotState (α : Type) where
  value : Option α
  taskParked : Bool
  senders : Nat
  receiverAlive : Bool
deriving DecidableEq, Repr

/-- Result of `Sender::swap`. -/
inductive SwapRes (α : Type) where
  | ok (prev : Option α)
  | closed
deriving DecidableEq, Repr

/-- `Sender::swap` (`src/slot.rs` lines 46-68): when the receiver is
alive, replace the cell, take and notify the parked task; when the
receiver has been dropped (the weak upgrade fails), fail and leave the
state alone.  The third component tells whether a parked receiver task
was woken. -/
def slot_swap {α : Type} (st : SlotState α) (v : α) :
    SlotState α × SwapRes α × Bool :=
  if st.receiverAlive then
    ({ st with value := some v, taskParked := false }, .ok st.value,
      st.taskParked)
  else (st, .closed, false)

/-- Result of the receiver's `poll`. -/
inductive RecvPoll (α : Type) where
  | ready (x : α)
  | endOfStream
  | notReady
deriving DecidableEq, Repr

/-- `Stream::poll for Receiver` (`src/slot.rs` lines 112-134): a
buffered value is taken and returned; with an empty cell and no senders
left the stream ends (the parked task reference is dropped); otherwise
the current task is parked and the poll is not ready. -/
def slot_poll {α : Type} (st : SlotState α) : SlotState α × RecvPoll α :=
  match st.value with
  | some x => ({ st with value := none }, .ready x)
  | none =>
    if st.senders = 0 then ({ st with taskParked := false }, .endOfStream)
    else ({ st with taskParked := true }, .notReady)

/-! ## Concrete fixtures used by the witness theorems -/

/-- Sample back-end: the fallthrough, offering both subscribe
capabilities. -/
def bkRoot : Backend := ⟨0, some 1, some 2⟩

/-- Sample back-end bound to the suffix "b.c". -/
def bk1 : Backend := ⟨1, some 3, some 4⟩

/-- Sample back-end bound to the suffix "c". -/
def bk2 : Backend := ⟨2, none, none⟩

/-- Sample IP 127.0.0.1. -/
def ip1 : IpAddr := .v4 127 0 0 1

/-- Sample IP 127.0.0.2. -/
def ip2 : IpAddr := .v4 127 0 0 2

/-- A sample configuration: one static host, one static service, two
nested suffixes and a fallthrough. -/
def sampleCfg : Config :=
  { restart_delay := 100
    convergence_delay := 100
    hosts := [("localhost".toList, [ip1])]
    services := [("svc".toList, withPort [ip2] 443)]
    suffixes := [("b.c".toList, bk1), ("c".toList, bk2)]
    root := bkRoot }

/-- Projection of a parse outcome to the successfully parsed name. -/
def parsedOk (r : Except ParseErr InternalName) : Option InternalName :=
  match r with
  | .ok x => some x
  | .error _ => none

/-! ## Theorems -/

lemma scanSuffix_eq_findSome (cfg : Config) :
    ∀ s : Str, scanSuffix cfg s = (dotSuffixes s).findSome? (lookupA cfg.suffixes) := by
  intro s
  induction s with
  | nil => simp [scanSuffix, dotSuffixes]
  | cons c rest ih =>
    by_cases hc : c = '.'
    · simp only [scanSuffix, dotSuffixes, hc, if_pos rfl, List.singleton_append,
        List.findSome?]
      cases h : lookupA cfg.suffixes rest with
      | some b => simp [h]
      | none => simp [h, ih]
    · simp [scanSuffix, dotSuffixes, hc, ih]

lemma length_lt_of_mem_dotSuffixes :
    ∀ {s t : Str}, t ∈ dotSuffixes s → t.length < s.length := by
  intro s
  induction s with
  | nil => intro t h; simp [dotSuffixes] at h
  | cons c rest ih =>
    intro t h
    simp only [dotSuffixes] at h
    rcases List.mem_append.mp h with h1 | h2
    · by_cases hc : c = '.'
      · simp [hc] at h1
        subst h1; simp
      · simp [hc] at h1
    · exact Nat.lt_trans (ih h2) (by simp)

lemma dotSuffixes_pairwise :
    ∀ s : Str, (dotSuffixes s).Pairwise (fun a b => b.length < a.length) := by
  intro s
  induction s with
  | nil => simp [dotSuffixes]
  | cons c rest ih =>
    simp only [dotSuffixes]
    refine List.pairwise_append.mpr ⟨?_, ih, ?_⟩
    · by_cases hc : c = '.' <;> simp [hc]
    · intro a ha b hb
      by_cases hc : c = '.'
      · simp [hc] at ha
        subst ha
        exact length_lt_of_mem_dotSuffixes hb
      · simp [hc] at ha

lemma findSome?_first_of_sorted {β : Type} (f : Str → Option β) :
    ∀ l : List Str, l.Pairwise (fun a b => b.length < a.length) →
    ∀ s b, s ∈ l → f s = some b →
      (∀ t ∈ l, s.length < t.length → f t = none) →
      l.findSome? f = some b := by
  intro l
  induction l with
  | nil => intro _ s b hs; simp at hs
  | cons x rest ih =>
    intro hpw s b hs hfs hlonger
    rcases List.mem_cons.mp hs with h1 | h2
    · subst h1
      simp [List.findSome?, hfs]
    · have hxs : s.length < x.length :=
        (List.pairwise_cons.mp hpw).1 s h2
      have hx : f x = none := hlonger x (List.mem_cons_self _ _) hxs
      simp only [List.findSome?, hx]
      exact ih (List.pairwise_cons.mp hpw).2 s b h2 hfs
        (fun t ht => hlonger t (List.mem_cons_of_mem _ ht))

/-- C1: for every name n and installed config cfg with cfg.hosts[n] = V,
a ResolveHost request processed by the engine replies exactly V without
calling any back-end resolver (and ResolveHostPort replies
V.with_port(port)); symmetrically, for every n with cfg.services[n] = W,
a Resolve request replies exactly W without calling any back-end. -/
theorem C1_static_tables_reply (cfg : Config) (n : Str) (p : Nat) :
    (∀ V, lookupA cfg.hosts n = some V →
      resolve_host cfg n = .replied V ∧
      resolve_host_port cfg n p = .replied (withPort V p)) ∧
    (∀ W, lookupA cfg.services n = some W →
      resolve cfg n = .replied W) := by
  refine ⟨fun V h => ⟨?_, ?_⟩, fun W h => ?_⟩
  · simp [resolve_host, h]
  · simp [resolve_host_port, h]
  · simp [resolve, h]

/-- Witness for C1 at the sample configuration. -/
theorem C1_static_tables_reply_witness :
    resolve_host sampleCfg "localhost".toList = .replied [ip1] ∧
    resolve_host_port sampleCfg "localhost".toList 80
      = .replied (withPort [ip1] 80) ∧
    resolve sampleCfg "svc".toList = .replied (withPort [ip2] 443) :=
  ⟨((C1_static_tables_reply sampleCfg "localhost".toList 80).1 [ip1]
      (by decide)).1,
   ((C1_static_tables_reply sampleCfg "localhost".toList 80).1 [ip1]
      (by decide)).2,
   (C1_static_tables_reply sampleCfg "svc".toList 80).2 (withPort [ip2] 443)
      (by decide)⟩

/-- C2: for every config cfg and name string n, get_suffix(cfg, n)
returns the back-end bound to n itself when n is a suffix key; otherwise
it returns the back-end of the first matching right-hand suffix found by
scanning each '.' position of n left-to-right (so a longer, more
specific suffix wins over any strict suffix of it); and if no suffix
matches it returns the fallthrough back-end. -/
theorem C2_suffix_lookup (cfg : Config) (n : Str) :
    get_suffix cfg n = getSuffixSpec cfg n ∧
    (∀ s b, lookupA cfg.suffixes n = none → s ∈ dotSuffixes n →
      lookupA cfg.suffixes s = some b →
      (∀ t ∈ dotSuffixes n, s.length < t.length →
        lookupA cfg.suffixes t = none) →
      get_suffix cfg n = b) := by
  constructor
  · unfold get_suffix getSuffixSpec
    rw [scanSuffix_eq_findSome]
  · intro s b hn hs hb hlonger
    unfold get_suffix
    rw [hn, scanSuffix_eq_findSome,
      findSome?_first_of_sorted (lookupA cfg.suffixes) (dotSuffixes n)
        (dotSuffixes_pairwise n) s b hs hb hlonger]

/-- Witness for C2: in the sample configuration the name "a.b.c"
dispatches to the back-end of the longer suffix "b.c", not to the one of
its strict suffix "c". -/
theorem C2_suffix_lookup_witness :
    get_suffix sampleCfg "a.b.c".toList = bk1 :=
  (C2_suffix_lookup sampleCfg "a.b.c".toList).2 "b.c".toList bk1
    (by decide) (by decide) (by decide) (by decide)

lemma subscr_poll_items_lead {α : Type} (items : List α)
    (tl : List (SrcEv α)) (r : TaskResult)
    (h : subscr_poll false tl = ([], r)) :
    subscr_poll false (items.map .item ++ tl) = (items, r) := by
  induction items with
  | nil => simpa using h
  | cons x rest ih =>
    simp only [List.map_cons, List.cons_append, subscr_poll,
      Bool.false_eq_true, if_false, List.append_eq, ih]

lemma subscr_poll_mem {α : Type} (closed : Bool) :
    ∀ (evs : List (SrcEv α)) (x : α),
      x ∈ (subscr_poll closed evs).1 → SrcEv.item x ∈ evs := by
  intro evs
  induction evs with
  | nil =>
    intro x hx
    simp [subscr_poll] at hx
  | cons e rest ih =>
    intro x hx
    cases e with
    | item y =>
      by_cases hc : closed = true
      · subst hc; simp [subscr_poll] at hx
      · simp only [Bool.not_eq_true] at hc
        subst hc
        simp only [subscr_poll, Bool.false_eq_true, if_false] at hx
        rcases List.mem_cons.mp hx with h1 | h2
        · subst h1; exact List.mem_cons_self _ _
        · exact List.mem_cons_of_mem _ (ih x h2)
    | done => simp [subscr_poll] at hx
    | error => simp [subscr_poll] at hx

/-- C3: for every single-name subscription task, a back-end stream error
or end-of-stream never delivers an error to the consumer slot: the
task's poll returns DelayRestart in both cases (after logging), and the
engine turns a DelayRestart into a Restart only after cfg.restart_delay
elapses; the only values ever written to the consumer slot are values
yielded by a back-end stream or static config entries. -/
theorem C3_subscriptions_never_error {α τ : Type} (cfg : Config)
    (items : List α) (tl evs : List (SrcEv α)) (closed : Bool) (t : τ)
    (n m : Str) (bid : Nat) (sd cl : Bool) (v : Address) (w : IpList) :
    subscr_poll false (items.map .item ++ .done :: tl)
      = (items, .DelayRestart) ∧
    subscr_poll false (items.map .item ++ .error :: tl)
      = (items, .DelayRestart) ∧
    (∀ x, x ∈ (subscr_poll closed evs).1 → SrcEv.item x ∈ evs) ∧
    engine_handle cfg (.DelayRestart t)
      = .timer cfg.restart_delay (.Restart t) ∧
    (subscr_restart cfg n bid sd cl = .noopTask m v →
      m = n ∧ lookupA cfg.services n = some v) ∧
    (host_subscr_restart cfg n bid sd cl = .noopTask m w →
      m = n ∧ lookupA cfg.hosts n = some w) := by
  refine ⟨subscr_poll_items_lead items _ _ rfl,
    subscr_poll_items_lead items _ _ rfl,
    subscr_poll_mem closed evs, rfl, ?_, ?_⟩
  · intro h
    unfold subscr_restart at h
    cases hl : lookupA cfg.services n with
    | none =>
      rw [hl] at h
      simp only at h
      split at h <;> simp at h
    | some u =>
      rw [hl] at h
      cases cl <;> simp_all
  · intro h
    unfold host_subscr_restart at h
    cases hl : lookupA cfg.hosts n with
    | none =>
      rw [hl] at h
      simp only at h
      split at h <;> simp at h
    | some u =>
      rw [hl] at h
      cases cl <;> simp_all

/-- Witness for C3: a concrete source delivering one IpList and then
ending yields that value and DelayRestart; the engine schedules the
restart behind the sample restart delay. -/
theorem C3_subscriptions_never_error_witness :
    subscr_poll false [SrcEv.item [ip1], SrcEv.done]
      = ([[ip1]], TaskResult.DelayRestart) ∧
    SrcEv.item [ip1] ∈ [SrcEv.item [ip1]] ∧
    engine_handle sampleCfg (FutureResult.DelayRestart 0)
      = .timer 100 (.Restart 0) ∧
    ("svc".toList = "svc".toList ∧
      lookupA sampleCfg.services "svc".toList = some (withPort [ip2] 443)) :=
  have h := C3_subscriptions_never_error (α := IpList) (τ := Nat) sampleCfg
    [[ip1]] [] [SrcEv.item [ip1]] false 0 "svc".toList "svc".toList 7 false
    false (withPort [ip2] 443) [ip1]
  ⟨h.1, h.2.2.1 [ip1] (by decide), h.2.2.2.1, h.2.2.2.2.1 (by decide)⟩

/-- C4: when a single-name subscription task watching name n, bound to
back-end b with fused source stream s, is restarted with config cfg: if
cfg.hosts (resp. cfg.services) now contains n, the static value is
written into the slot and the task is replaced by a no-op task holding
(n, slot); otherwise, letting b' = get_suffix(cfg, n) for the same kind,
a fresh subscription on b' is created exactly when b' differs from b by
pointer identity or s.is_done() holds, and in all remaining cases the
task is re-spawned unchanged. -/
theorem C4_restart_rerouting (cfg : Config) (n : Str) (bid : Nat)
    (sd cl : Bool) :
    (∀ v, lookupA cfg.hosts n = some v →
      host_subscr_restart cfg n bid sd false = .noopTask n v) ∧
    (lookupA cfg.hosts n = none →
      (host_subscr_restart cfg n bid sd cl = .fresh (get_suffix cfg n) ↔
        ((get_suffix cfg n).id ≠ bid ∨ sd = true))) ∧
    (lookupA cfg.hosts n = none → (get_suffix cfg n).id = bid →
      sd = false → host_subscr_restart cfg n bid sd cl = .respawn) ∧
    (∀ v, lookupA cfg.services n = some v →
      subscr_restart cfg n bid sd false = .noopTask n v) ∧
    (lookupA cfg.services n = none →
      (subscr_restart cfg n bid sd cl = .fresh (get_suffix cfg n) ↔
        ((get_suffix cfg n).id ≠ bid ∨ sd = true))) ∧
    (lookupA cfg.services n = none → (get_suffix cfg n).id = bid →
      sd = false → subscr_restart cfg n bid sd cl = .respawn) := by
  refine ⟨fun v h => ?_, fun h => ?_, fun h hid hsd => ?_,
    fun v h => ?_, fun h => ?_, fun h hid hsd => ?_⟩
  · simp [host_subscr_restart, h]
  · unfold host_subscr_restart
    rw [h]
    by_cases hc : (get_suffix cfg n).id ≠ bid ∨ sd = true
    · simp [hc]
    · simp [hc]
  · simp [host_subscr_restart, h, hid, hsd]
  · simp [subscr_restart, h]
  · unfold subscr_restart
    rw [h]
    by_cases hc : (get_suffix cfg n).id ≠ bid ∨ sd = true
    · simp [hc]
    · simp [hc]
  · simp [subscr_restart, h, hid, hsd]

/-- Witness for C4 at the sample configuration: a static host produces
the no-op replacement; a name with no static entry resubscribes exactly
when the back-end identity changed or the source is done, and respawns
otherwise. -/
theorem C4_restart_rerouting_witness :
    host_subscr_restart sampleCfg "localhost".toList 7 false false
      = .noopTask "localhost".toList [ip1] ∧
    subscr_restart sampleCfg "x".toList 7 false false
      = .fresh (get_suffix sampleCfg "x".toList) ∧
    subscr_restart sampleCfg "x".toList 0 false false = .respawn :=
  ⟨(C4_restart_rerouting sampleCfg "localhost".toList 7 false false).1
      [ip1] (by decide),
   ((C4_restart_rerouting sampleCfg "x".toList 7 false false).2.2.2.2.1
      (by decide)).mpr (by decide),
   (C4_restart_rerouting sampleCfg "x".toList 0 false false).2.2.2.2.2
      (by decide) (by decide) rfl⟩

lemma multiPollEntries_emitted (items : Items) (current : List InternalName)
    (timer1 : Option Unit) (updated0 : Bool)
    (vals : List (InternalName × EntryVal)) (a : Address)
    (h : (multiPollEntries items current timer1 updated0 vals).emitted
      = some a) :
    a = currentUnion (multiPollEntries items current timer1 updated0 vals).items := by
  simp only [multiPollEntries] at h ⊢
  split_ifs at h ⊢ <;> simp_all

lemma multi_poll_emitted (items : Items) (current : List InternalName)
    (timer : Option Unit) (closed timerFires : Bool) (inEv : InEv)
    (vals : List (InternalName × EntryVal)) (a : Address)
    (h : (multi_poll items current timer closed timerFires inEv vals).emitted
      = some a) :
    a = currentUnion
      (multi_poll items current timer closed timerFires inEv vals).items := by
  cases closed with
  | true => simp [multi_poll] at h
  | false =>
    cases inEv with
    | errored => simp [multi_poll] at h
    | ended => simp [multi_poll] at h
    | notReady =>
      simp only [multi_poll, Bool.false_eq_true, if_false] at h ⊢
      exact multiPollEntries_emitted _ _ _ _ _ _ h
    | newList l =>
      simp only [multi_poll, Bool.false_eq_true, if_false] at h ⊢
      split at h
      · simp_all
      · split
        · simp_all
        · exact multiPollEntries_emitted _ _ _ _ _ _ h

lemma multi_restart_emitted (cfg : Config) (current : List InternalName)
    (old : Items) (prevTimer : Option Unit) (timerFired closed : Bool)
    (a : Address)
    (h : (multi_restart cfg current old prevTimer timerFired closed).emitted
      = some a) :
    a = currentUnion
      (multi_restart cfg current old prevTimer timerFired closed).items := by
  rcases hr : rebuild cfg current old [] true with ⟨its, ok⟩
  simp only [multi_restart, hr] at h ⊢
  split_ifs at h ⊢ <;> simp_all

/-- C5: the claim says the convergence gate emits immediately exactly
when every entry in the item map is complete (and the name list is
non-empty), and otherwise arms a timer of cfg.convergence_delay.  The
code's gate only inspects the kept pre-existing non-static entries, so a
restart that creates a fresh (hence incomplete) subscription entry emits
an incomplete union immediately and never arms the timer: evaluated
here at a one-name restart with an empty previous map. -/
theorem C5_gate_ignores_new_entries :
    (multi_restart sampleCfg [InternalName.HostPort "x".toList 80] [] none
        false false).items
      = [(InternalName.HostPort "x".toList 80, EntryState.Host none 80)] ∧
    EntryState.is_complete (EntryState.Host none 80) = false ∧
    (multi_restart sampleCfg [InternalName.HostPort "x".toList 80] [] none
        false false).emitted = some ∅ ∧
    (multi_restart sampleCfg [InternalName.HostPort "x".toList 80] [] none
        false false).timer = none := by
  refine ⟨?_, rfl, ?_, rfl⟩ <;> decide

/-- C6: every value emitted by a multi-name subscription task to its
consumer slot equals the union of entry.addr() over all entries
currently in its item map (entries whose addr() is None contribute
nothing), where addr() is IpList.with_port(port) for host entries and
the stored Address for service entries. -/
theorem C6_emission_is_union (cfg : Config) (current cur2 : List InternalName)
    (old items : Items) (prevTimer timer : Option Unit)
    (timerFired closed closed2 timerFires : Bool) (inEv : InEv)
    (vals : List (InternalName × EntryVal)) (a a2 : Address) (l : IpList)
    (p : Nat) :
    ((multi_restart cfg current old prevTimer timerFired closed).emitted
        = some a →
      a = currentUnion
        (multi_restart cfg current old prevTimer timerFired closed).items) ∧
    ((multi_poll items cur2 timer closed2 timerFires inEv vals).emitted
        = some a2 →
      a2 = currentUnion
        (multi_poll items cur2 timer closed2 timerFires inEv vals).items) ∧
    EntryState.addr (.StaticHost l p) = some (withPort l p) ∧
    EntryState.addr (.StaticAddr a) = some a ∧
    EntryState.addr (.Host (some l) p) = some (withPort l p) ∧
    EntryState.addr (.Addr (some a)) = some a ∧
    EntryState.addr (.Host none p) = none ∧
    EntryState.addr (.Addr none) = none :=
  ⟨multi_restart_emitted cfg current old prevTimer timerFired closed a,
   multi_poll_emitted items cur2 timer closed2 timerFires inEv vals a2,
   rfl, rfl, rfl, rfl, rfl, rfl⟩

/-- Witness for C6: a restart that statically resolves "localhost"
emits, and the emitted value is the union over the rebuilt item map. -/
theorem C6_emission_is_union_witness :
    withPort [ip1] 80 = currentUnion
      (multi_restart sampleCfg [InternalName.HostPort "localhost".toList 80]
        [] none false false).items :=
  (C6_emission_is_union sampleCfg
      [InternalName.HostPort "localhost".toList 80] [] [] [] none none false
      false false false .notReady [] (withPort [ip1] 80) ∅ [] 80).1
    (by decide)

/-- C7: the claim says an empty current name list makes the task emit an
empty Address and complete the convergence gate immediately, without
waiting for cfg.convergence_delay.  In the code an empty list fails the
`all_ok && len > 0` gate, so nothing is emitted and the convergence
timer is armed instead: evaluated here at a concrete restart. -/
theorem C7_empty_list_counterexample :
    (multi_restart sampleCfg [] [] none false false).emitted = none ∧
    (multi_restart sampleCfg [] [] none false false).timer = some () := by
  constructor <;> rfl

/-- C7 (amended): when the current name list is empty, restart emits
nothing and arms the convergence timer; the empty Address is emitted
immediately only when the fresh convergence timer is already fired
(e.g. convergence_delay is zero), and otherwise only once the armed
timer fires in a later poll. -/
theorem C7_empty_list_amended (cfg : Config) (old : Items)
    (prevTimer : Option Unit) :
    ((multi_restart cfg [] old prevTimer false false).emitted = none ∧
     (multi_restart cfg [] old prevTimer false false).timer = some () ∧
     (multi_restart cfg [] old prevTimer false false).alive = true) ∧
    ((multi_restart cfg [] old prevTimer true false).emitted = some ∅ ∧
     (multi_restart cfg [] old prevTimer true false).timer = none) ∧
    (multi_poll [] [] (some ()) false true .notReady []).emitted = some ∅ := by
  have hr : rebuild cfg [] old [] true = ([], true) := rfl
  refine ⟨⟨?_, ?_, ?_⟩, ⟨?_, ?_⟩, ?_⟩ <;>
    simp [multi_restart, hr, currentUnion, unionAddrs, multi_poll,
      multiPollEntries]

/-- C8: for every input string s and default port p,
AutoName::Auto(s).parse(p) follows exactly this precedence: IP literal,
then socket-address form, then the '_' service prefix (so a service
prefix combined with an explicit ':port' is rejected with an InvalidName
error rather than parsed as HostPort), then host:port splitting at the
first ':', then bare host with the default port; name failures map to
InvalidName(raw, "bad name") and port failures to InvalidName(raw, "bad
port number"). -/
theorem C8_auto_parse_precedence (s h t r : Str) (p prt : Nat) (n : Str)
    (ip : IpAddr) (sa : SockAddr) :
    (parseIp s = some ip → auto_parse s p = .ok (.Addr ⟨ip, p⟩)) ∧
    (parseIp s = none → parseSockAddr s = some sa →
      auto_parse s p = .ok (.Addr sa)) ∧
    (parseIp s = none → parseSockAddr s = none → s.head? = some '_' →
      (nameFromStr s = some n → auto_parse s p = .ok (.Service n)) ∧
      (nameFromStr s = none → auto_parse s p = .error (.badName s)) ∧
      (∀ h2 p2, auto_parse s p ≠ .ok (.HostPort h2 p2))) ∧
    (parseIp s = none → parseSockAddr s = none → s.head? ≠ some '_' →
      splitAtChar ':' s = some (h, t) →
      (nameFromStr h = some n → parsePort t = some prt →
        auto_parse s p = .ok (.HostPort n prt)) ∧
      (nameFromStr h = none → auto_parse s p = .error (.badName s)) ∧
      (nameFromStr h = some n → parsePort t = none →
        auto_parse s p = .error (.badPort s))) ∧
    (parseIp s = none → parseSockAddr s = none → s.head? ≠ some '_' →
      splitAtChar ':' s = none →
      (nameFromStr s = some n → auto_parse s p = .ok (.HostPort n p)) ∧
      (nameFromStr s = none → auto_parse s p = .error (.badName s))) ∧
    auto_parse "_my._svc.x:80".toList 80
      = .error (.badName "_my._svc.x:80".toList) ∧
    errInto (.badName r) = .InvalidName r ("bad name".toList) ∧
    errInto (.badPort r) = .InvalidName r ("bad port number".toList) := by
  refine ⟨fun hip => by simp [auto_parse, hip],
    fun hip hsa => by simp [auto_parse, hip, hsa],
    fun hip hsa hund =>
      ⟨fun hn => by simp [auto_parse, hip, hsa, hund, hn],
       fun hn => by simp [auto_parse, hip, hsa, hund, hn],
       fun h2 p2 => by
         cases hn : nameFromStr s <;>
           simp [auto_parse, hip, hsa, hund, hn]⟩,
    fun hip hsa hund hsp =>
      ⟨fun hn hp => by simp [auto_parse, hip, hsa, hund, hsp, hn, hp],
       fun hn => by simp [auto_parse, hip, hsa, hund, hsp, hn],
       fun hn hp => by simp [auto_parse, hip, hsa, hund, hsp, hn, hp]⟩,
    fun hip hsa hund hsp =>
      ⟨fun hn => by simp [auto_parse, hip, hsa, hund, hsp, hn],
       fun hn => by simp [auto_parse, hip, hsa, hund, hsp, hn]⟩,
    rfl, rfl, rfl⟩

/-- Witness for C8 across the branches: an IP literal, an IP with port,
an SRV-style service name, host:port and a bare host. -/
theorem C8_auto_parse_precedence_witness :
    auto_parse "127.0.0.1".toList 80
      = .ok (.Addr ⟨IpAddr.v4 127 0 0 1, 80⟩) ∧
    auto_parse "127.0.0.1:8080".toList 80
      = .ok (.Addr ⟨IpAddr.v4 127 0 0 1, 8080⟩) ∧
    auto_parse "_my._svc.localhost".toList 1234
      = .ok (.Service "_my._svc.localhost".toList) ∧
    auto_parse "localhost:8080".toList 1234
      = .ok (.HostPort "localhost".toList 8080) ∧
    auto_parse "localhost".toList 1234
      = .ok (.HostPort "localhost".toList 1234) :=
  ⟨(C8_auto_parse_precedence "127.0.0.1".toList [] [] [] 80 0 []
      (IpAddr.v4 127 0 0 1) ⟨IpAddr.v4 0 0 0 0, 0⟩).1 (by decide),
   (C8_auto_parse_precedence "127.0.0.1:8080".toList [] [] [] 80 0 []
      (IpAddr.v4 0 0 0 0) ⟨IpAddr.v4 127 0 0 1, 8080⟩).2.1
      (by decide) (by decide),
   ((C8_auto_parse_precedence "_my._svc.localhost".toList [] [] [] 1234 0
      "_my._svc.localhost".toList (IpAddr.v4 0 0 0 0)
      ⟨IpAddr.v4 0 0 0 0, 0⟩).2.2.1 (by decide) (by decide) (by decide)).1
      (by decide),
   ((C8_auto_parse_precedence "localhost:8080".toList "localhost".toList
      "8080".toList [] 1234 8080 "localhost".toList (IpAddr.v4 0 0 0 0)
      ⟨IpAddr.v4 0 0 0 0, 0⟩).2.2.2.1 (by decide) (by decide) (by decide)
      (by decide)).1 (by decide) (by decide),
   ((C8_auto_parse_precedence "localhost".toList [] [] [] 1234 0
      "localhost".toList (IpAddr.v4 0 0 0 0)
      ⟨IpAddr.v4 0 0 0 0, 0⟩).2.2.2.2.1 (by decide) (by decide) (by decide)
      (by decide)).1 (by decide)⟩

/-- C9: for the slot channel: swap(value) replaces the at-most-one
buffered value (returning the previous one if present), wakes the
waiting receiver, and fails only if the receiver has been dropped; the
receiver's poll takes and returns the buffered value when the cell is
non-empty, returns end when all senders are dropped and the cell is
empty, and otherwise registers the current task and returns NotReady. -/
theorem C9_slot_channel {α : Type} (st : SlotState α) (v x : α) :
    (st.receiverAlive = true →
      slot_swap st v
        = ({ st with value := some v, taskParked := false }, .ok st.value,
            st.taskParked)) ∧
    (st.receiverAlive = false → slot_swap st v = (st, .closed, false)) ∧
    ((slot_swap st v).2.1 = .closed ↔ st.receiverAlive = false) ∧
    (st.value = some x →
      slot_poll st = ({ st with value := none }, .ready x)) ∧
    (st.value = none → st.senders = 0 →
      slot_poll st = ({ st with taskParked := false }, .endOfStream)) ∧
    (st.value = none → st.senders ≠ 0 →
      slot_poll st = ({ st with taskParked := true }, .notReady)) := by
  refine ⟨fun h => ?_, fun h => ?_, ?_, fun h => ?_, fun h h2 => ?_,
    fun h h2 => ?_⟩
  · simp [slot_swap, h]
  · simp [slot_swap, h]
  · cases hr : st.receiverAlive <;> simp [slot_swap, hr]
  · simp [slot_poll, h]
  · simp [slot_poll, h, h2]
  · simp [slot_poll, h, h2]

/-- Witness for C9 at concrete slot states. -/
theorem C9_slot_channel_witness :
    slot_swap (⟨some 1, true, 1, true⟩ : SlotState Nat) 2
      = (⟨some 2, false, 1, true⟩, .ok (some 1), true) ∧
    slot_swap (⟨none, false, 1, false⟩ : SlotState Nat) 2
      = (⟨none, false, 1, false⟩, .closed, false) ∧
    slot_poll (⟨some 1, false, 1, true⟩ : SlotState Nat)
      = (⟨none, false, 1, true⟩, .ready 1) ∧
    slot_poll (⟨none, false, 0, true⟩ : SlotState Nat)
      = (⟨none, false, 0, true⟩, .endOfStream) ∧
    slot_poll (⟨none, false, 2, true⟩ : SlotState Nat)
      = (⟨none, true, 2, true⟩, .notReady) :=
  ⟨(C9_slot_channel ⟨some 1, true, 1, true⟩ 2 0).1 rfl,
   (C9_slot_channel ⟨none, false, 1, false⟩ 2 0).2.1 rfl,
   (C9_slot_channel ⟨some 1, false, 1, true⟩ 2 1).2.2.2.1 rfl,
   (C9_slot_channel ⟨none, false, 0, true⟩ 2 0).2.2.2.2.1 rfl rfl,
   (C9_slot_channel ⟨none, false, 2, true⟩ 2 0).2.2.2.2.2 rfl (by decide)⟩

lemma parse_fold_append (p : Nat) :
    ∀ (names : List Str) (acc : List InternalName),
      names.foldl (fun acc2 n =>
        match auto_parse n p with
        | .ok x => acc2 ++ [x]
        | .error _ => acc2) acc
      = acc ++ names.filterMap (fun s2 => parsedOk (auto_parse s2 p)) := by
  intro names
  induction names with
  | nil => intro acc; simp
  | cons nm rest ih =>
    intro acc
    simp only [List.foldl_cons, List.filterMap_cons]
    cases hp : auto_parse nm p with
    | ok x => simp [hp, parsedOk, ih]
    | error e => simp [hp, parsedOk, ih]

/-- C10: in subscribe_many and subscribe_stream, every input name whose
parse fails is logged and silently omitted from the subscribed name
list: the parse failure is never surfaced as an error or termination on
the returned address stream, and the remaining names in the same list
are still subscribed. -/
theorem C10_parse_failures_skipped (names xs ys : List Str) (nm : Str)
    (p : Nat) (e : ParseErr) :
    parse_name_list names p
      = names.filterMap (fun s2 => parsedOk (auto_parse s2 p)) ∧
    (auto_parse nm p = .error e →
      parse_name_list (xs ++ nm :: ys) p
        = parse_name_list xs p ++ parse_name_list ys p) := by
  constructor
  · simpa using parse_fold_append p names []
  · intro hfail
    have hx := parse_fold_append p
    simp only [parse_name_list, hx, List.nil_append, List.filterMap_append,
      List.filterMap_cons, hfail, parsedOk]

/-- Witness for C10: a list where the middle name fails to parse yields
exactly the parses of the remaining names. -/
theorem C10_parse_failures_skipped_witness :
    parse_name_list
        ["localhost".toList, "_x:80".toList, "a.b".toList] 80
      = parse_name_list ["localhost".toList] 80
          ++ parse_name_list ["a.b".toList] 80 :=
  (C10_parse_failures_skipped [] ["localhost".toList] ["a.b".toList]
    "_x:80".toList 80 (.badName "_x:80".toList)).2 rfl

end NsRouter
